import Mathlib

/-!
# Verification of the yams-repo Cloudflare worker (`src/worker/src/worker.ts`)

A shallow embedding of the worker's request handling logic.  Strings are
modelled as `List Char` (`Str`), the R2 object store as a list of stored
objects whose `get`/`list` semantics follow the repository's own
`MockR2Bucket` (`src/worker/test/mocks.ts`), and HTTP responses as a
structure of status, header list and optional body.  JSON response bodies
are kept structured (`JVal`) rather than serialized, since no observable
property here depends on `JSON.stringify` whitespace; HTML bodies are kept
as literal character lists because the escaping properties are about the
exact output text.

Modelling notes, used consistently below:
* `localeCompare` (default locale, no options) and JavaScript's default
  `Array.sort` comparator are modelled as code-unit lexicographic
  comparison, which is what they compute on the ASCII names occurring in
  this repository's object keys.
* `localeCompare(a, undefined, {numeric: true})` is modelled by comparing
  numeric-aware token keys (`verKey` below): maximal digit runs compare by
  numeric value, other characters by code unit.
* Dates are carried as their ISO-8601 rendering (`toISOString` is the
  identity on the stored string).
* `Math.log`-based unit selection in `formatBytes` is modelled by exact
  integer arithmetic.
-/

/-- Strings of the embedded program: lists of characters. -/
abbrev Str : Type := List Char

/-- Converts a Lean string literal into the embedded string type. -/
def str (s : String) : Str := s.toList

/-- The apostrophe character (U+0027). -/
def apos : Char := Char.ofNat 39

/-- The double-quote character (U+0022). -/
def dquote : Char := Char.ofNat 34

/-- `s.endsWith(t)` of JavaScript: `t` is a suffix of `s`. -/
def endsW (s suf : Str) : Bool := List.isSuffixOf suf s

/-- Decimal rendering of a natural number, as `String(n)` produces. -/
def natStr (n : Nat) : Str := (Nat.repr n).toList

/-- JSON values (used for structured JSON response bodies). -/
inductive JVal : Type where
  | jstr : Str → JVal
  | jnum : Int → JVal
  | jbool : Bool → JVal
  | jnull : JVal
  | jarr : List JVal → JVal
  | jobj : List (String × JVal) → JVal

/-- A response body: either raw text/bytes or a structured JSON document. -/
inductive BodyVal : Type where
  | raw : Str → BodyVal
  | json : JVal → BodyVal

/-- An HTTP response: status code, ordered header list, optional body. -/
structure HttpResponse : Type where
  status : Nat
  headers : List (Str × Str)
  body : Option BodyVal

/-- `Headers.set`: replace the value of an existing header, else append. -/
def setHeader (hs : List (Str × Str)) (k v : Str) : List (Str × Str) :=
  if hs.any (fun p => p.1 = k) then
    hs.map (fun p => if p.1 = k then (k, v) else p)
  else hs ++ [(k, v)]

/-- `Headers.get`: the value of the first header with the given name. -/
def getHeader (hs : List (Str × Str)) (k : Str) : Option Str :=
  (hs.find? (fun p => p.1 = k)).map (fun p => p.2)

/-- The `SECURITY_HEADERS` table of `worker.ts`. -/
def SECURITY_HEADERS : List (Str × Str) :=
  [ (str "X-Content-Type-Options", str "nosniff"),
    (str "X-Frame-Options", str "DENY"),
    (str "Referrer-Policy", str "no-referrer"),
    (str "X-XSS-Protection", str "1; mode=block"),
    (str "Permissions-Policy", str "geolocation=(), microphone=(), camera=()") ]

/-- `addSecurityHeaders`: sets each security header on the header list. -/
def addSecurityHeaders (hs : List (Str × Str)) : List (Str × Str) :=
  SECURITY_HEADERS.foldl (fun acc p => setHeader acc p.1 p.2) hs

/-- The `TEXT_TYPES` table of `worker.ts` (order preserved). -/
def TEXT_TYPES : List (Str × Str) :=
  [ (str ".json", str "application/json; charset=utf-8"),
    (str ".txt", str "text/plain; charset=utf-8"),
    (str ".md", str "text/markdown; charset=utf-8"),
    (str ".xml", str "application/xml; charset=utf-8"),
    (str "Release", str "text/plain; charset=utf-8"),
    (str "InRelease", str "text/plain; charset=utf-8"),
    (str "Packages", str "text/plain; charset=utf-8"),
    (str ".repo", str "text/plain; charset=utf-8") ]

/-- The `BINARY_TYPES` table of `worker.ts` (order preserved). -/
def BINARY_TYPES : List (Str × Str) :=
  [ (str ".deb", str "application/vnd.debian.binary-package"),
    (str ".rpm", str "application/x-rpm"),
    (str ".gz", str "application/gzip"),
    (str ".xz", str "application/x-xz"),
    (str ".bz2", str "application/x-bzip2"),
    (str ".key", str "application/pgp-keys") ]

/-- First table entry whose suffix matches the key. -/
def tableLookup (table : List (Str × Str)) (key : Str) : Option Str :=
  (table.find? (fun p => endsW key p.1)).map (fun p => p.2)

/-- `guessContentType`: text table first, then binary table, then the
trailing-slash fallback, else the `undefined` sentinel. -/
def guessContentType (key : Str) : Option Str :=
  match tableLookup TEXT_TYPES key with
  | some ct => some ct
  | none =>
    match tableLookup BINARY_TYPES key with
    | some ct => some ct
    | none => if endsW key (str "/") then some (str "text/plain; charset=utf-8") else none

/-- `immutable`: the regex `(\.deb$|\.rpm$)` tested on the path. -/
def immutable (path : Str) : Bool := endsW path (str ".deb") || endsW path (str ".rpm")

/-- `notFound`: 404 JSON response; `JSON.stringify` drops the `cfRay`
field when the identifier is `undefined`. -/
def notFound (msg : Str) (cfId : Option Str) : HttpResponse :=
  { status := 404
    headers := [(str "Content-Type", str "application/json; charset=utf-8")]
    body := some (BodyVal.json (JVal.jobj
      ([("error", JVal.jstr msg)] ++
        (match cfId with
         | some i => [("cfRay", JVal.jstr i)]
         | none => [])))) }

example : guessContentType (str "pool/main/y/yams/x.deb")
    = some (str "application/vnd.debian.binary-package") := by decide

example : guessContentType (str "dists/stable/Release")
    = some (str "text/plain; charset=utf-8") := by decide

example : guessContentType (str "mystery") = none := by decide

example : immutable (str "a.rpm") = true := by decide

example : natStr 31536000 = str "31536000" := by decide

/-- A stored R2 object: key, content bytes, the store-assigned entity tag
(`httpEtag`; `none` models an absent tag, `some []` an empty one — both are
falsy in `obj.httpEtag || ...`), and the upload timestamp carried as its
ISO-8601 rendering. -/
structure StoredObject : Type where
  key : Str
  content : Str
  httpEtag : Option Str
  uploaded : Str
  /-- `JSON.parse` of the content: `some v` when the content is valid JSON,
  `none` when parsing would throw. Only consulted by the plugin API. -/
  contentJson : Option JVal

/-- `obj.size`: the byte length of the content. -/
def StoredObject.size (o : StoredObject) : Nat := o.content.length

/-- The R2 bucket: stored objects in insertion order (the mock bucket's
`Map` iterates in insertion order). -/
abbrev Bucket : Type := List StoredObject

/-- `bucket.get(key)`: the object stored under exactly this key. -/
def Bucket.get (b : Bucket) (key : Str) : Option StoredObject :=
  b.find? (fun o => o.key = key)

/-- Result of `bucket.list({prefix, delimiter: '/', limit})`. -/
structure Listing : Type where
  objects : List StoredObject
  delimitedPrefixes : List Str

/-- `Set.add` of JavaScript: append if not already present. -/
def addUnique (l : List Str) (x : Str) : List Str :=
  if x ∈ l then l else l ++ [x]

/-- Index of the first occurrence of a character (`indexOf`). -/
def idxOfChar : Str → Char → Option Nat
  | [], _ => none
  | a :: as, c => if a = c then some 0 else (idxOfChar as c).map (fun i => i + 1)

/-- The delimiter scan of `MockR2Bucket.list`: for each matching key, the
remainder past the prefix either contributes a delimited sub-prefix (up to
and including the first `/`), is collected as a file (non-empty, no `/`),
or is skipped (empty remainder = the prefix itself). -/
def collect (pfx : Str) : List StoredObject → List Str × List StoredObject →
    List Str × List StoredObject
  | [], acc => acc
  | o :: rest, acc =>
    let rel := o.key.drop pfx.length
    match idxOfChar rel '/' with
    | some i => collect pfx rest (addUnique acc.1 (pfx ++ rel.take (i + 1)), acc.2)
    | none =>
      if rel.length > 0 then collect pfx rest (acc.1, acc.2 ++ [o])
      else collect pfx rest acc

/-- `bucket.list({prefix, delimiter: '/', limit})` as implemented by the
repository's `MockR2Bucket`: keys filtered by prefix, partitioned into
files and delimited sub-prefixes; files truncated to the limit, prefixes
sorted (JavaScript default sort = code-unit lexicographic). -/
def listDelim (b : Bucket) (pfx : Str) (limit : Nat) : Listing :=
  let ms := b.filter (fun o => pfx.isPrefixOf o.key)
  let pr := collect pfx ms ([], [])
  { objects := pr.2.take limit
    delimitedPrefixes := List.insertionSort (· ≤ ·) pr.1 }

/-- An incoming request: the URL path plus the headers and parsed JSON body
the worker consults.  `parsedJson` models the outcome of `req.json()`:
`none` when parsing throws, otherwise the three fields the install handler
reads (absent fields are `none`, empty-string fields `some []`). -/
structure InstallFields : Type where
  version : Option Str
  platform : Option Str
  yams_version : Option Str

structure Request : Type where
  path : Str
  method : Str
  ifNoneMatch : Option Str
  accept : Option Str
  cfRay : Option Str
  cfConnectingIP : Option Str
  parsedJson : Option InstallFields

/-- `req.headers.get('Accept')?.includes('application/json') || false`. -/
def acceptJson (req : Request) : Bool :=
  match req.accept with
  | some a => decide ((str "application/json") <:+: a)
  | none => false

/-- JavaScript `x || d` on an optional string: `undefined` and the empty
string are falsy. -/
def jsOr (x : Option Str) (d : Str) : Str :=
  match x with
  | some s => if s = [] then d else s
  | none => d

/-- The weak fallback tag `W/"${obj.size}"`. -/
def weakTag (size : Nat) : Str := str "W/" ++ [dquote] ++ natStr size ++ [dquote]

/-- The entity tag served for an object: `obj.httpEtag || W/"${obj.size}"`. -/
def etagOf (o : StoredObject) : Str := jsOr o.httpEtag (weakTag o.size)

/-- The header set built on the object-hit path of `serveObjectOrDirectory`
(lines 129–147): security headers, content type, cache policy, entity tag
and content length — built before the `If-None-Match` comparison and shared
by the 200 and the 304 response. -/
def hitHeaders (key : Str) (o : StoredObject) : List (Str × Str) :=
  let h0 := addSecurityHeaders []
  let ct := (guessContentType key).getD (str "application/octet-stream")
  let h1 := setHeader h0 (str "Content-Type") ct
  let h2 := setHeader h1 (str "Cache-Control")
    (if immutable key then str "public, max-age=31536000, immutable"
     else str "public, max-age=300")
  let h3 := setHeader h2 (str "ETag") (etagOf o)
  setHeader h3 (str "Content-Length") (natStr o.size)

/-- `normalizePath`: strip one leading slash. -/
def normalizePath (p : Str) : Str :=
  match p with
  | [] => p
  | c :: rest => if c = '/' then rest else p

/-- `s.replace(/c/g, r)` for a single-character pattern: every occurrence
of `c` replaced by `r`. -/
def replaceAllChar (s : Str) (c : Char) (r : Str) : Str :=
  s.flatMap (fun a => if a = c then r else [a])

/-- `escapeHtml`: the five sequential global replacements of `worker.ts`
lines 163–170 (`&` first, then `<`, `>`, `"`, `'`). -/
def escapeHtml (s : Str) : Str :=
  replaceAllChar
    (replaceAllChar
      (replaceAllChar
        (replaceAllChar
          (replaceAllChar s '&' (str "&amp;"))
          '<' (str "&lt;"))
        '>' (str "&gt;"))
      dquote (str "&quot;"))
    apos (str "&#039;")

/-- Fuel-driven base-1024 logarithm, `Math.floor(Math.log b / Math.log k)`
computed exactly (the float computation agrees on these integer inputs). -/
def log1024Aux : Nat → Nat → Nat
  | 0, _ => 0
  | fuel + 1, n => if n < 1024 then 0 else 1 + log1024Aux fuel (n / 1024)

def log1024 (n : Nat) : Nat := log1024Aux n n

/-- The `sizes` array of `formatBytes`; out-of-range indices render as the
string `undefined` does in a template literal. -/
def sizeLabel : Nat → Str
  | 0 => str "B"
  | 1 => str "KB"
  | 2 => str "MB"
  | 3 => str "GB"
  | _ => str "undefined"

/-- `formatBytes`: one decimal digit, base 1024. `toFixed(1)` is modelled
as exact rounding half-up of `bytes / 1024^i`. -/
def formatBytes (bytes : Nat) : Str :=
  if bytes = 0 then str "0 B"
  else
    let i := log1024 bytes
    let k := 1024 ^ i
    let whole := bytes / k
    let tenths := ((bytes % k) * 10 * 2 + k) / (2 * k)
    let p := if tenths = 10 then (whole + 1, 0) else (whole, tenths)
    natStr p.1 ++ str "." ++ natStr p.2 ++ str " " ++ sizeLabel i

/-- `s.replace('T', ' ')`-style single replacement of the first occurrence
of a character. -/
def replaceFirstChar (s : Str) (c r : Char) : Str :=
  match s with
  | [] => []
  | a :: as => if a = c then r :: as else a :: replaceFirstChar as c r

/-- `modified.toISOString().replace('T', ' ').substring(0, 19)`, with the
timestamp already carried as its ISO rendering. -/
def isoFmt (uploaded : Str) : Str := (replaceFirstChar uploaded 'T' ' ').take 19

/-- A derived directory entry of `listDirectory`. -/
structure DirEntry : Type where
  name : Str
  size : Nat
  modified : Str
  isDir : Bool

/-- Entry order used by `allEntries`: by name, `localeCompare` modelled as
code-unit lexicographic comparison. -/
def entryLe (a b : DirEntry) : Prop := a.name ≤ b.name

instance : DecidableRel entryLe :=
  fun a b => inferInstanceAs (Decidable (a.name ≤ b.name))

instance : IsTotal DirEntry entryLe := ⟨fun a b => le_total a.name b.name⟩

instance : IsTrans DirEntry entryLe := ⟨fun _ _ _ => le_trans⟩

/-- `str.split('/')`. -/
def splitSlash : Str → List Str
  | [] => [[]]
  | c :: rest =>
    if c = '/' then [] :: splitSlash rest
    else
      match splitSlash rest with
      | [] => [[c]]
      | s :: ss => (c :: s) :: ss

/-- The cumulative breadcrumb links of `generateBreadcrumbs`: for each path
segment, ` / <a href="<cumulative path>/"><escaped segment></a>`.  Note the
href embeds the cumulative path unescaped, as the source does. -/
def crumbLinks (cur : Str) : List Str → Str
  | [] => []
  | part :: rest =>
    let cur2 := cur ++ str "/" ++ part
    (str " / <a href=" ++ [dquote] ++ cur2 ++ str "/" ++ [dquote] ++ str ">"
      ++ escapeHtml part ++ str "</a>")
      ++ crumbLinks cur2 rest

/-- `generateBreadcrumbs`. -/
def generateBreadcrumbs (path : Str) : Str :=
  if path = str "/" then []
  else
    let parts := (splitSlash path).filter (fun p => p.length > 0)
    str "<div class=\"breadcrumb\"><a href=\"/\">Home</a>"
      ++ crumbLinks [] parts ++ str "</div>"

/-- One `<tr>` of the entry table (the template inside
`allEntries.map` at lines 270–277). -/
def entryRow (e : DirEntry) : Str :=
  str "\n      <tr>\n        <td class=\"name " ++ (if e.isDir then str "dir" else [])
    ++ str "\">\n          <a href=" ++ [dquote] ++ escapeHtml e.name ++ [dquote]
    ++ str ">" ++ escapeHtml e.name ++ str "</a>\n        </td>\n        <td class=\"size\">"
    ++ (if e.isDir then str "-" else formatBytes e.size)
    ++ str "</td>\n        <td class=\"modified\">"
    ++ (if e.isDir then str "-" else isoFmt e.modified)
    ++ str "</td>\n      </tr>"

/-- The synthetic parent-directory row, emitted when the display path is
not the root. -/
def parentRow : Str :=
  str "\n      <tr>\n        <td class=\"name dir\"><a href=\"../\">../</a></td>\n        <td class=\"size\">-</td>\n        <td class=\"modified\">Parent Directory</td>\n      </tr>"

/-- The static HTML up to the first `${escapeHtml(displayPath)}`. -/
def htmlHead1 : Str :=
  str "<!DOCTYPE html>\n<html>\n<head>\n  <meta charset=\"utf-8\">\n  <meta name=\"viewport\" content=\"width=device-width, initial-scale=1\">\n  <title>Index of "

/-- The static HTML between the title and the `<h1>` insertion: the style
block (its literal braces written as `\x7b`/`\x7d`) and the body opening. -/
def htmlHead2 : Str :=
  str "</title>\n  <style>\n    body \x7b font-family: monospace; margin: 2em; background: #f5f5f5; \x7d\n    h1 \x7b border-bottom: 2px solid #333; padding-bottom: 0.5em; \x7d\n    .breadcrumb \x7b margin: 1em 0; font-size: 0.9em; \x7d\n    .breadcrumb a \x7b color: #0066cc; text-decoration: none; \x7d\n    .breadcrumb a:hover \x7b text-decoration: underline; \x7d\n    table \x7b border-collapse: collapse; width: 100%; background: white; \x7d\n    th \x7b text-align: left; padding: 0.5em; background: #e0e0e0; border-bottom: 2px solid #333; \x7d\n    td \x7b padding: 0.5em; border-bottom: 1px solid #ddd; \x7d\n    tr:hover \x7b background: #f9f9f9; \x7d\n    .name a \x7b color: #0066cc; text-decoration: none; \x7d\n    .name a:hover \x7b text-decoration: underline; \x7d\n    .dir \x7b font-weight: bold; \x7d\n    .size \x7b text-align: right; \x7d\n    .modified \x7b color: #666; \x7d\n  </style>\n</head>\n<body>\n  <h1>Index of "

/-- The static HTML between the heading and the breadcrumbs. -/
def htmlMid1 : Str := str "</h1>\n  "

/-- The static table header after the breadcrumbs. -/
def htmlMid2 : Str :=
  str "\n  <table>\n    <thead>\n      <tr>\n        <th>Name</th>\n        <th class=\"size\">Size</th>\n        <th class=\"modified\">Last Modified</th>\n      </tr>\n    </thead>\n    <tbody>\n      "

/-- The static tail of the page. -/
def htmlTail : Str := str "\n    </tbody>\n  </table>\n</body>\n</html>"

/-- The full HTML page of `listDirectory` (lines 229–281), with every
dynamic insertion in source order. -/
def listingHtml (displayPath : Str) (allEntries : List DirEntry) : Str :=
  htmlHead1 ++ escapeHtml displayPath ++ htmlHead2 ++ escapeHtml displayPath
    ++ htmlMid1 ++ generateBreadcrumbs displayPath ++ htmlMid2
    ++ (if displayPath ≠ str "/" then parentRow else [])
    ++ str "\n      " ++ (allEntries.map entryRow).flatten
    ++ htmlTail

/-- The sorted entry list of `listDirectory`: directories first, then
files, each group sorted by name (stable `Array.sort` with a
`localeCompare` comparator, modelled as insertion sort by code-unit
lexicographic name order). -/
def allEntriesOf (npfx : Str) (listing : Listing) : List DirEntry :=
  let files := listing.objects.map (fun o =>
    { name := o.key.drop npfx.length
      size := o.size
      modified := o.uploaded
      isDir := false : DirEntry })
  let dirs := listing.delimitedPrefixes.map (fun p =>
    { name := p.drop npfx.length
      size := 0
      modified := []
      isDir := true : DirEntry })
  List.insertionSort entryLe dirs ++ List.insertionSort entryLe files

/-- `listDirectory` (lines 180–286).  The `modified` field of a directory
entry is `new Date()` in the source; it is rendered only for files, so it
is carried as the empty string here. -/
def listDirectory (b : Bucket) (pfx displayPath : Str) (acceptJson : Bool) : HttpResponse :=
  let npfx := normalizePath pfx
  let listing := listDelim b npfx 1000
  if listing.objects.length = 0 ∧ listing.delimitedPrefixes.length = 0 then
    notFound (str "directory not found") none
  else
    let allEntries := allEntriesOf npfx listing
    let headers := addSecurityHeaders []
    if acceptJson then
      { status := 200
        headers := setHeader headers (str "Content-Type") (str "application/json; charset=utf-8")
        body := some (BodyVal.json (JVal.jobj
          [ ("path", JVal.jstr displayPath),
            ("files", JVal.jarr (allEntries.map (fun e => JVal.jstr e.name))) ])) }
    else
      let h1 := setHeader headers (str "Content-Type") (str "text/html; charset=utf-8")
      let h2 := setHeader h1 (str "Cache-Control") (str "public, max-age=60")
      { status := 200
        headers := h2
        body := some (BodyVal.raw (listingHtml displayPath allEntries)) }

/-- `serveObjectOrDirectory` (lines 94–156).  The 304 branch also cancels
the object's body stream, a resource effect with no observable trace in
the response value. -/
def serveObjectOrDirectory (b : Bucket) (key displayPath : Str) (req : Request) :
    HttpResponse :=
  if endsW displayPath (str "/") then
    listDirectory b key displayPath (acceptJson req)
  else
    match Bucket.get b key with
    | none =>
      let probe := listDelim b (if endsW key (str "/") then key else key ++ str "/") 1
      if probe.objects.length > 0 ∨ probe.delimitedPrefixes.length > 0 then
        { status := 301
          headers := [(str "Location", displayPath ++ str "/")]
          body := none }
      else notFound (str "object not found") req.cfRay
    | some obj =>
      let headers := hitHeaders key obj
      let etag := etagOf obj
      match req.ifNoneMatch with
      | some t =>
        if t ≠ [] ∧ t = etag then { status := 304, headers := headers, body := none }
        else { status := 200, headers := headers, body := some (BodyVal.raw obj.content) }
      | none => { status := 200, headers := headers, body := some (BodyVal.raw obj.content) }

/-- `shouldRateLimit` (lines 304–314). -/
def shouldRateLimit (path : Str) : Bool :=
  endsW path (str ".deb") || endsW path (str ".rpm") || endsW path (str ".tar.gz")
    || (str "/api/").isPrefixOf path || path = str "/latest.json"

/-- `rateLimitExceeded` (lines 316–331). -/
def rateLimitExceeded : HttpResponse :=
  { status := 429
    headers := [ (str "Content-Type", str "application/json; charset=utf-8"),
                 (str "Retry-After", str "60") ]
    body := some (BodyVal.json (JVal.jobj
      [ ("error", JVal.jstr (str "Rate limit exceeded")),
        ("message", JVal.jstr (str "Too many requests. Please try again later.")),
        ("retry_after", JVal.jnum 60) ])) }

/-- `addCorsHeaders` (lines 333–337). -/
def addCorsHeaders (hs : List (Str × Str)) : List (Str × Str) :=
  let h1 := setHeader hs (str "Access-Control-Allow-Origin") (str "*")
  let h2 := setHeader h1 (str "Access-Control-Allow-Methods") (str "GET, POST, OPTIONS")
  setHeader h2 (str "Access-Control-Allow-Headers") (str "Content-Type")

/-- `jsonResponse` (lines 339–346). -/
def jsonResponse (data : JVal) (status : Nat) (cacheMaxAge : Nat) : HttpResponse :=
  let h1 := addCorsHeaders (addSecurityHeaders [])
  let h2 := setHeader h1 (str "Content-Type") (str "application/json; charset=utf-8")
  let h3 := setHeader h2 (str "Cache-Control") (str "public, max-age=" ++ natStr cacheMaxAge)
  { status := status, headers := h3, body := some (BodyVal.json data) }

/-- The 500 response of the top-level catch.  The stringified JavaScript
error is not modelled; in this embedding the only operation that can throw
past the limiter is `JSON.parse` on a stored manifest, rendered with a
fixed message. -/
def internalError : HttpResponse :=
  { status := 500
    headers := [(str "Content-Type", str "application/json; charset=utf-8")]
    body := some (BodyVal.json (JVal.jobj
      [ ("error", JVal.jstr (str "Internal server error")),
        ("message", JVal.jstr (str "SyntaxError")) ])) }

/-- Field lookup in a JSON object (`manifest.field`). -/
def jGet : JVal → String → Option JVal
  | JVal.jobj fields, k => (fields.find? (fun p => p.1 = k)).map (fun p => p.2)
  | _, _ => none

/-- JavaScript falsiness of a JSON value. -/
def falsyJ : JVal → Bool
  | JVal.jstr s => s = []
  | JVal.jnum n => n = 0
  | JVal.jbool b => !b
  | JVal.jnull => true
  | _ => false

/-- `s.replace(pat, rep)` with a string pattern: first occurrence only. -/
def replaceFirst (s pat rep : Str) : Str :=
  match s with
  | [] => []
  | c :: rest =>
    if pat.isPrefixOf s ∧ pat ≠ [] then rep ++ s.drop pat.length
    else c :: replaceFirst rest pat rep

/-- One field of the plugin-list projection: present fields are kept,
absent ones dropped (as `JSON.stringify` drops `undefined`). -/
def optField (m : JVal) (k : String) : List (String × JVal) :=
  match jGet m k with
  | some v => [(k, v)]
  | none => []

/-- `manifest.downloads || 0`. -/
def downloadsVal (m : JVal) : JVal :=
  match jGet m "downloads" with
  | some d => if falsyJ d then JVal.jnum 0 else d
  | none => JVal.jnum 0

/-- The projection pushed for each plugin by `handlePluginApiList`. -/
def pluginProjection (m : JVal) : JVal :=
  JVal.jobj (optField m "name" ++ optField m "version" ++ optField m "description"
    ++ [("downloads", downloadsVal m)])

/-- The manifest-reading loop of `handlePluginApiList`: plugins with no
manifest object are skipped; a manifest whose content fails `JSON.parse`
throws (propagating to the top-level 500). -/
def pluginListEntries (b : Bucket) : List Str → Except Unit (List JVal)
  | [] => Except.ok []
  | p :: rest =>
    let pluginName := replaceFirst (replaceFirst p (str "plugins/") []) (str "/") []
    match Bucket.get b (str "plugins/" ++ pluginName ++ str "/manifest.json") with
    | none => pluginListEntries b rest
    | some o =>
      match o.contentJson with
      | none => Except.error ()
      | some m => (pluginListEntries b rest).map (fun l => pluginProjection m :: l)

/-- `handlePluginApiList` (lines 348–375). -/
def handlePluginApiList (b : Bucket) : HttpResponse :=
  let listing := listDelim b (str "plugins/") 1000
  match pluginListEntries b listing.delimitedPrefixes with
  | Except.error _ => internalError
  | Except.ok plugins => jsonResponse (JVal.jobj [("plugins", JVal.jarr plugins)]) 200 60

/-- `handlePluginApiGet` (lines 377–388). -/
def handlePluginApiGet (b : Bucket) (pluginName : Str) : HttpResponse :=
  match Bucket.get b (str "plugins/" ++ pluginName ++ str "/manifest.json") with
  | none =>
    jsonResponse (JVal.jobj [("error",
      JVal.jstr (str "Plugin " ++ [apos] ++ pluginName ++ [apos] ++ str " not found"))]) 404 300
  | some o =>
    match o.contentJson with
    | none => internalError
    | some m => jsonResponse m 200 3600

/-- Tokens of the numeric-aware comparison: maximal digit runs (kept as
their digit characters) and single non-digit characters. -/
inductive VTok : Type where
  | num : Str → VTok
  | ch : Char → VTok

/-- One step of right-to-left tokenization: a digit joins the digit run to
its right, any other character stands alone. -/
def tokStep (c : Char) (ts : List VTok) : List VTok :=
  if c.isDigit then
    match ts with
    | VTok.num ds :: rest => VTok.num (c :: ds) :: rest
    | _ => VTok.num [c] :: ts
  else VTok.ch c :: ts

def tokenize (s : Str) : List VTok := s.foldr tokStep []

/-- Numeric value of a digit run. -/
def digitsVal (ds : Str) : Nat := ds.foldl (fun a c => a * 10 + (c.toNat - 48)) 0

/-- Fixed-width encoding of a token: a class component and a value
component.  Digit runs get the class of the digit block (48, the code of
`0`), so numbers order by value among themselves, after characters below
`0` (such as `.`) and before characters above `9`. -/
def tokPair : VTok → List Nat
  | VTok.num ds => [48, digitsVal ds]
  | VTok.ch c => [c.toNat, 0]

/-- The comparison key modelling `localeCompare(·, undefined,
{numeric: true})`: lexicographic over fixed-width token encodings. -/
def verKey (s : Str) : List Nat := (tokenize s).flatMap tokPair

/-- Descending numeric-aware order, the output order of
`versions.sort((a, b) => b.localeCompare(a, undefined, {numeric: true}))`. -/
def vdesc (a b : Str) : Prop := verKey b ≤ verKey a

instance : DecidableRel vdesc :=
  fun a b => inferInstanceAs (Decidable (verKey b ≤ verKey a))

instance : IsTotal Str vdesc := ⟨fun a b => le_total (verKey b) (verKey a)⟩

instance : IsTrans Str vdesc := ⟨fun _ _ _ h1 h2 => le_trans h2 h1⟩

/-- The version sort of `handlePluginApiVersions` / `handlePluginApiLatest`. -/
def sortVersionsDesc (vs : List Str) : List Str := List.insertionSort vdesc vs

/-- The regex `plugins\/[^\x2f]+\/([^\x2f]+)\//` matched at the start of
the given string: literal `plugins/`, a non-empty slash-free segment and
slash, then the captured non-empty slash-free segment and slash. -/
def matchVersionAt (s : Str) : Option Str :=
  if (str "plugins/").isPrefixOf s then
    let rest := s.drop 8
    let seg1 := rest.takeWhile (fun c => c ≠ '/')
    if seg1.length > 0 ∧ rest.drop seg1.length ≠ [] then
      let rest2 := rest.drop (seg1.length + 1)
      let seg2 := rest2.takeWhile (fun c => c ≠ '/')
      if seg2.length > 0 ∧ rest2.drop seg2.length ≠ [] then some seg2 else none
    else none
  else none

/-- `prefix.match(/plugins\/[^\x2f]+\/([^\x2f]+)\//)`: the capture of the
first (leftmost) position where the pattern matches. -/
def versionMatch : Str → Option Str
  | [] => none
  | c :: rest =>
    match matchVersionAt (c :: rest) with
    | some v => some v
    | none => versionMatch rest

/-- The version-collecting loop shared by `handlePluginApiVersions`
(lines 397–404) and `handlePluginApiLatest` (lines 436–442): each
delimited sub-prefix matching the version regex contributes its capture,
except the literal `manifest.json`. -/
def versionsOf (b : Bucket) (pluginName : Str) : List Str :=
  (listDelim b (str "plugins/" ++ pluginName ++ str "/") 1000).delimitedPrefixes.foldl
    (fun acc p =>
      match versionMatch p with
      | some v => if v ≠ str "manifest.json" then acc ++ [v] else acc
      | none => acc) []

/-- `handlePluginApiVersions` (lines 390–414). -/
def handlePluginApiVersions (b : Bucket) (pluginName : Str) : HttpResponse :=
  let versions := versionsOf b pluginName
  if versions.length = 0 then
    jsonResponse (JVal.jobj [("error",
      JVal.jstr (str "No versions found for plugin " ++ [apos] ++ pluginName ++ [apos]))]) 404 300
  else
    jsonResponse (JVal.jobj
      [("versions", JVal.jarr ((sortVersionsDesc versions).map JVal.jstr))]) 200 300

/-- `handlePluginApiVersion` (lines 416–427). -/
def handlePluginApiVersion (b : Bucket) (pluginName vers : Str) : HttpResponse :=
  match Bucket.get b (str "plugins/" ++ pluginName ++ str "/" ++ vers ++ str "/manifest.json") with
  | none =>
    jsonResponse (JVal.jobj [("error",
      JVal.jstr (str "Version " ++ [apos] ++ vers ++ [apos] ++ str " not found for plugin "
        ++ [apos] ++ pluginName ++ [apos]))]) 404 300
  | some o =>
    match o.contentJson with
    | none => internalError
    | some m => jsonResponse m 200 86400

/-- `handlePluginApiLatest` (lines 429–452). -/
def handlePluginApiLatest (b : Bucket) (pluginName : Str) : HttpResponse :=
  let versions := versionsOf b pluginName
  if versions.length = 0 then
    jsonResponse (JVal.jobj [("error",
      JVal.jstr (str "Plugin " ++ [apos] ++ pluginName ++ [apos] ++ str " not found"))]) 404 300
  else
    match sortVersionsDesc versions with
    | [] => internalError
    | latestVersion :: _ => handlePluginApiVersion b pluginName latestVersion

/-- `handlePluginApiInstall` (lines 454–467), over the parse outcome of
`req.json()`: a parse failure lands in the catch branch; a parsed body is
validated for the three required truthy fields. -/
def handlePluginApiInstall (parsedJson : Option InstallFields) : HttpResponse :=
  match parsedJson with
  | none => jsonResponse (JVal.jobj [("error", JVal.jstr (str "Invalid JSON body"))]) 400 300
  | some body =>
    if jsOr body.version [] = [] ∨ jsOr body.platform [] = [] ∨ jsOr body.yams_version [] = [] then
      jsonResponse (JVal.jobj [("error",
        JVal.jstr (str "Invalid request body. Required: version, platform, yams_version"))]) 400 300
    else jsonResponse (JVal.jobj [("success", JVal.jbool true)]) 200 0

/-- The OPTIONS preflight response of `handlePluginApi`. -/
def preflightResponse : HttpResponse :=
  { status := 204
    headers := setHeader (addCorsHeaders []) (str "Access-Control-Max-Age") (str "86400")
    body := none }

/-- `handlePluginApi` (lines 469–513). -/
def handlePluginApi (b : Bucket) (req : Request) (pathParts : List Str) : HttpResponse :=
  if req.method = str "OPTIONS" then preflightResponse
  else
    match pathParts with
    | [] => handlePluginApiList b
    | [pluginName] => handlePluginApiGet b pluginName
    | pluginName :: action :: rest =>
      if action = str "versions" then handlePluginApiVersions b pluginName
      else if action = str "latest" then handlePluginApiLatest b pluginName
      else if action = str "install" ∧ req.method = str "POST" then
        handlePluginApiInstall req.parsedJson
      else if rest = [] then handlePluginApiVersion b pluginName action
      else jsonResponse (JVal.jobj [("error", JVal.jstr (str "Unknown API endpoint"))]) 404 300

/-- The deterministic outcome of one `RATE_LIMITER.limit({key})` call for
the request at hand: allowed, denied, or the call throwing. -/
inductive LimiterOutcome : Type where
  | allow : LimiterOutcome
  | deny : LimiterOutcome
  | fault : LimiterOutcome

/-- Environment bindings: the bucket, the optional limiter (with its
outcome for this request), and the three configured strings. -/
structure Env : Type where
  bucket : Bucket
  rateLimiter : Option LimiterOutcome
  aptPfx : Str
  yumPfx : Str
  latestManifest : Str

/-- Result of the rate-limit gate: a short-circuit response (429) when the
limiter denies, plus whether the limiter was consulted at all. -/
structure GateResult : Type where
  blocked : Option HttpResponse
  consulted : Bool

/-- The gate at the top of `fetch` (lines 521–533): only rate-limited
paths with a configured limiter consult it; a denial short-circuits with
the 429 response; a thrown limiter fault is caught and the request
proceeds (fail-open). -/
def rateLimitGate (path : Str) (limiter : Option LimiterOutcome) : GateResult :=
  match limiter with
  | none => { blocked := none, consulted := false }
  | some outcome =>
    if shouldRateLimit path then
      match outcome with
      | LimiterOutcome.deny => { blocked := some rateLimitExceeded, consulted := true }
      | _ => { blocked := none, consulted := true }
    else { blocked := none, consulted := false }

/-- The root service-descriptor response (lines 535–548), constructed with
only a `Content-Type` header. -/
def rootDescriptor : HttpResponse :=
  { status := 200
    headers := [(str "Content-Type", str "application/json; charset=utf-8")]
    body := some (BodyVal.json (JVal.jobj
      [ ("service", JVal.jstr (str "yams-repo")),
        ("endpoints", JVal.jobj
          [ ("apt", JVal.jstr (str "/aptrepo")),
            ("yum", JVal.jstr (str "/yumrepo")),
            ("manifest", JVal.jstr (str "/latest.json")),
            ("gpg_key", JVal.jstr (str "/gpg.key")) ]) ])) }

/-- `/^\//`-style strip of one leading slash (the second `replace` on the
API path). -/
def dropLeadingSlash (p : Str) : Str :=
  match p with
  | '/' :: rest => rest
  | _ => p

/-- The routing after the rate-limit gate (lines 535–585). -/
def route (env : Env) (req : Request) : HttpResponse :=
  let path := req.path
  if path = str "/" ∨ path = [] then rootDescriptor
  else if path = str "/latest.json" then
    serveObjectOrDirectory env.bucket env.latestManifest path req
  else if path = str "/gpg.key" then
    serveObjectOrDirectory env.bucket (str "gpg.key") path req
  else if (str "/aptrepo").isPrefixOf path then
    serveObjectOrDirectory env.bucket
      (normalizePath (replaceFirst path (str "/aptrepo") env.aptPfx)) path req
  else if (str "/yumrepo").isPrefixOf path then
    serveObjectOrDirectory env.bucket
      (normalizePath (replaceFirst path (str "/yumrepo") env.yumPfx)) path req
  else if (str "/api/v1/plugins").isPrefixOf path then
    let apiPath := dropLeadingSlash (replaceFirst path (str "/api/v1/plugins") [])
    let pathParts := if apiPath.length > 0 then splitSlash apiPath else []
    handlePluginApi env.bucket req pathParts
  else if (str "/plugins").isPrefixOf path then
    serveObjectOrDirectory env.bucket (normalizePath path) path req
  else notFound (str "unknown route") req.cfRay

/-- The exported `fetch` handler (lines 515–594): the rate-limit gate
followed by the route dispatch.  In this embedding the only operation the
top-level catch can see throw is manifest `JSON.parse`, already rendered
as `internalError` inside the handlers. -/
def workerFetch (env : Env) (req : Request) : HttpResponse :=
  match (rateLimitGate req.path env.rateLimiter).blocked with
  | some r => r
  | none => route env req

example :
    sortVersionsDesc [str "0.1.0", str "0.2.0", str "0.3.0"]
      = [str "0.3.0", str "0.2.0", str "0.1.0"] := by decide

example : sortVersionsDesc [str "0.9.0", str "0.10.0"] = [str "0.10.0", str "0.9.0"] := by
  decide

example : versionMatch (str "plugins/demo/0.2.0/") = some (str "0.2.0") := by decide

/-! ## Helper lemmas -/

/-- The served entity tag is never the empty string. -/
theorem etagOf_ne_nil (o : StoredObject) : etagOf o ≠ [] := by
  unfold etagOf jsOr weakTag
  cases h : o.httpEtag with
  | none => simp [str]
  | some s =>
    by_cases hs : s = []
    · simp [hs, str]
    · simp [hs]

/-- Appending a single character makes the string end with it. -/
theorem endsW_append_single (x : Str) (c : Char) : endsW (x ++ [c]) [c] = true := by
  simp [endsW, List.isSuffixOf, List.isPrefixOf]

/-- `dp + "/"` ends in `"//"` exactly when `dp` already ended in `"/"`. -/
theorem endsW_double_slash (dp : Str) :
    endsW (dp ++ str "/") (str "//") = endsW dp (str "/") := by
  have h1 : str "/" = ['/'] := rfl
  have h2 : str "//" = ['/', '/'] := rfl
  simp [h1, h2, endsW, List.isSuffixOf, List.isPrefixOf]

/-- A string ending in a character contains it. -/
theorem endsW_single_mem {f : Str} {c : Char} (h : endsW f [c] = true) : c ∈ f := by
  unfold endsW List.isSuffixOf at h
  rw [← List.mem_reverse]
  cases hr : f.reverse with
  | nil => rw [hr] at h; simp [List.isPrefixOf] at h
  | cons a r =>
    rw [hr] at h
    simp only [List.reverse_cons, List.isPrefixOf, List.isPrefixOf_nil_left,
      Bool.and_true] at h
    simp [beq_iff_eq] at h
    simp [h]

/-- Specification of `idxOfChar` on success: the prefix through the found
index ends with the character. -/
theorem idxOfChar_take {s : Str} {c : Char} {i : Nat} (h : idxOfChar s c = some i) :
    s.take (i + 1) = s.take i ++ [c] := by
  induction s generalizing i with
  | nil => simp [idxOfChar] at h
  | cons a as ih =>
    by_cases hac : a = c
    · simp [idxOfChar, hac] at h
      subst h
      simp [hac]
    · simp [idxOfChar, hac] at h
      obtain ⟨j, hj, rfl⟩ := h
      simp [List.take_succ_cons, ih hj]

/-- `idxOfChar` finds nothing exactly when the character is absent. -/
theorem idxOfChar_none {s : Str} {c : Char} (h : idxOfChar s c = none) : c ∉ s := by
  induction s with
  | nil => simp
  | cons a as ih =>
    by_cases hac : a = c
    · simp [idxOfChar, hac] at h
    · simp [idxOfChar, hac] at h
      simp [ih h, Ne.symm hac]

/-- A key with no leading slash is untouched by `normalizePath`. -/
theorem normalizePath_no_slash {key : Str} (h : (str "/").isPrefixOf key = false) :
    normalizePath key = key := by
  cases key with
  | nil => rfl
  | cons c rest =>
    have h1 : str "/" = ['/'] := rfl
    rw [h1] at h
    simp [List.isPrefixOf] at h
    simp [normalizePath, Ne.symm h]

/-- Shape of a delimited sub-prefix: past the listing prefix it ends with
the delimiter. -/
def dirShape (pfx p : Str) : Prop := endsW (p.drop pfx.length) (str "/") = true

/-- Shape of a collected file: past the listing prefix its key is
non-empty and delimiter-free. -/
def fileShape (pfx : Str) (o : StoredObject) : Prop :=
  idxOfChar (o.key.drop pfx.length) '/' = none ∧ (o.key.drop pfx.length).length > 0

/-- Every sub-prefix accumulated by `collect` has `dirShape`. -/
theorem collect_dirShape (pfx : Str) :
    ∀ (l : List StoredObject) (acc : List Str × List StoredObject),
      (∀ p ∈ acc.1, dirShape pfx p) →
      ∀ p ∈ (collect pfx l acc).1, dirShape pfx p := by
  intro l
  induction l with
  | nil => intro acc hacc; exact hacc
  | cons o rest ih =>
    intro acc hacc
    rcases hidx : idxOfChar (o.key.drop pfx.length) '/' with _ | i
    · by_cases hlen : (o.key.drop pfx.length).length > 0
      · simp only [collect, hidx, if_pos hlen]
        exact ih _ hacc
      · simp only [collect, hidx, if_neg hlen]
        exact ih _ hacc
    · simp only [collect, hidx]
      apply ih
      intro p hp
      unfold addUnique at hp
      by_cases hmem : pfx ++ (o.key.drop pfx.length).take (i + 1) ∈ acc.1
      · rw [if_pos hmem] at hp; exact hacc p hp
      · rw [if_neg hmem] at hp
        rcases List.mem_append.mp hp with h | h
        · exact hacc p h
        · simp at h
          subst h
          unfold dirShape
          rw [List.drop_left' rfl, idxOfChar_take hidx]
          have := endsW_append_single ((o.key.drop pfx.length).take i) '/'
          simpa [str] using this

/-- Every file accumulated by `collect` has `fileShape`. -/
theorem collect_fileShape (pfx : Str) :
    ∀ (l : List StoredObject) (acc : List Str × List StoredObject),
      (∀ o ∈ acc.2, fileShape pfx o) →
      ∀ o ∈ (collect pfx l acc).2, fileShape pfx o := by
  intro l
  induction l with
  | nil => intro acc hacc; exact hacc
  | cons o rest ih =>
    intro acc hacc
    rcases hidx : idxOfChar (o.key.drop pfx.length) '/' with _ | i
    · by_cases hlen : (o.key.drop pfx.length).length > 0
      · simp only [collect, hidx, if_pos hlen]
        apply ih
        intro o' ho'
        rcases List.mem_append.mp ho' with h | h
        · exact hacc o' h
        · simp at h
          subst h
          exact ⟨hidx, hlen⟩
      · simp only [collect, hidx, if_neg hlen]
        exact ih _ hacc
    · simp only [collect, hidx]
      exact ih _ hacc

/-- Removing the objects stored under exactly the listing prefix does not
change the delimiter scan: such an object has an empty remainder and
contributes nothing. -/
theorem collect_filter_ne (k : Str) :
    ∀ (l : List StoredObject) (acc : List Str × List StoredObject),
      collect k (l.filter (fun o => o.key != k)) acc = collect k l acc := by
  intro l
  induction l with
  | nil => intro acc; rfl
  | cons o rest ih =>
    intro acc
    by_cases he : o.key = k
    · have hrel : o.key.drop k.length = [] := by
        rw [he, List.drop_length]
      have hne : ¬((o.key != k) = true) := by simp [he]
      have hidx : idxOfChar (o.key.drop k.length) '/' = none := by rw [hrel]; rfl
      have hlen : ¬((o.key.drop k.length).length > 0) := by rw [hrel]; simp
      rw [@List.filter_cons_of_neg StoredObject (fun o => o.key != k) o rest hne]
      simp only [collect, hidx, if_neg hlen]
      exact ih acc
    · have hne : (fun (o : StoredObject) => o.key != k) o = true := by
        simp [bne_iff_ne]; exact he
      rw [@List.filter_cons_of_pos StoredObject (fun o => o.key != k) o rest hne]
      rcases hidx : idxOfChar (o.key.drop k.length) '/' with _ | i
      · by_cases hlen : (o.key.drop k.length).length > 0
        · simp only [collect, hidx, if_pos hlen]
          exact ih _
        · simp only [collect, hidx, if_neg hlen]
          exact ih _
      · simp only [collect, hidx]
        exact ih _

/-- The let-free unfolding of `listDelim`. -/
theorem listDelim_eq (b : Bucket) (pfx : Str) (limit : Nat) :
    listDelim b pfx limit =
      { objects :=
          (collect pfx (b.filter (fun o => pfx.isPrefixOf o.key)) ([], [])).2.take limit
        delimitedPrefixes :=
          List.insertionSort (· ≤ ·)
            (collect pfx (b.filter (fun o => pfx.isPrefixOf o.key)) ([], [])).1 } := rfl

/-- Erasing the objects keyed exactly by the listing prefix leaves the
listing unchanged. -/
theorem listDelim_erase (k : Str) (b : Bucket) (limit : Nat) :
    listDelim (b.filter (fun o => o.key != k)) k limit = listDelim b k limit := by
  have h : (b.filter (fun o => o.key != k)).filter (fun o => k.isPrefixOf o.key)
      = (b.filter (fun o => k.isPrefixOf o.key)).filter (fun o => o.key != k) := by
    rw [List.filter_filter, List.filter_filter]
    congr 1
    funext o
    exact Bool.and_comm _ _
  rw [listDelim_eq, listDelim_eq, h, collect_filter_ne]

/-! ## Claims -/

/-- C8: for every request whose display path ends in `/`, the object
server delegates to the directory lister unconditionally, and (for keys
respecting the no-leading-slash invariant) its response does not depend on
whether an object is stored under that exact key, trailing slash
included — erasing such objects from the bucket leaves the response
unchanged, so no `get` on that key is observable. -/
theorem trailingSlash_always_listing (b : Bucket) (key dp : Str) (req : Request)
    (h : endsW dp (str "/") = true) :
    serveObjectOrDirectory b key dp req = listDirectory b key dp (acceptJson req)
    ∧ ((str "/").isPrefixOf key = false →
        serveObjectOrDirectory (b.filter (fun o => o.key != key)) key dp req
          = serveObjectOrDirectory b key dp req) := by
  constructor
  · simp [serveObjectOrDirectory, h]
  · intro hk
    have hn := normalizePath_no_slash hk
    simp only [serveObjectOrDirectory, h, if_pos]
    dsimp only [listDirectory]
    rw [hn, listDelim_erase]

def c8obj1 : StoredObject :=
  { key := str "aptrepo/", content := str "marker", httpEtag := some (str "e1"),
    uploaded := str "2025-01-01T00:00:00.000Z", contentJson := none }

def c8obj2 : StoredObject :=
  { key := str "aptrepo/Release", content := str "data", httpEtag := some (str "e2"),
    uploaded := str "2025-01-01T00:00:00.000Z", contentJson := none }

def c8req : Request :=
  { path := str "/aptrepo/", method := str "GET", ifNoneMatch := none, accept := none,
    cfRay := none, cfConnectingIP := none, parsedJson := none }

/-- Witness for C8 on a bucket that does store an object under the exact
key `aptrepo/` (trailing slash included). -/
theorem trailingSlash_always_listing_witness :
    endsW (str "/aptrepo/") (str "/") = true
    ∧ (serveObjectOrDirectory [c8obj1, c8obj2] (str "aptrepo/") (str "/aptrepo/") c8req
          = listDirectory [c8obj1, c8obj2] (str "aptrepo/") (str "/aptrepo/") (acceptJson c8req)
        ∧ ((str "/").isPrefixOf (str "aptrepo/") = false →
            serveObjectOrDirectory
                ([c8obj1, c8obj2].filter (fun o => o.key != str "aptrepo/"))
                (str "aptrepo/") (str "/aptrepo/") c8req
              = serveObjectOrDirectory [c8obj1, c8obj2] (str "aptrepo/") (str "/aptrepo/")
                  c8req)) :=
  ⟨by decide, trailingSlash_always_listing [c8obj1, c8obj2] (str "aptrepo/")
    (str "/aptrepo/") c8req (by decide)⟩

/-- C1 (amended): for an existing object on a non-directory path, a
request whose `If-None-Match` equals the computed entity tag (the store
tag, or the weak size-derived tag when that is absent or empty) receives a
304 with no body and the same header set as the 200 response — including
the `ETag` but also the `Content-Type` and `Content-Length` headers, since
the code builds the header set before the conditional check and passes it
to the 304 unchanged; a non-matching or absent `If-None-Match` receives a
200 with the full body under the same headers. -/
theorem conditionalGet_304_shares_headers (b : Bucket) (key dp : Str) (req : Request)
    (obj : StoredObject) (hdp : endsW dp (str "/") = false)
    (hget : Bucket.get b key = some obj) :
    (req.ifNoneMatch = some (etagOf obj) →
        serveObjectOrDirectory b key dp req
          = { status := 304, headers := hitHeaders key obj, body := none }
        ∧ getHeader (hitHeaders key obj) (str "ETag") = some (etagOf obj)
        ∧ getHeader (hitHeaders key obj) (str "Content-Type")
            = some ((guessContentType key).getD (str "application/octet-stream"))
        ∧ getHeader (hitHeaders key obj) (str "Content-Length") = some (natStr obj.size))
    ∧ (req.ifNoneMatch = none →
        serveObjectOrDirectory b key dp req
          = { status := 200, headers := hitHeaders key obj,
              body := some (BodyVal.raw obj.content) })
    ∧ (∀ t, req.ifNoneMatch = some t → t ≠ etagOf obj →
        serveObjectOrDirectory b key dp req
          = { status := 200, headers := hitHeaders key obj,
              body := some (BodyVal.raw obj.content) }) := by
  refine ⟨fun h => ⟨?_, rfl, rfl, rfl⟩, fun h => ?_, fun t h hne => ?_⟩
  · simp only [serveObjectOrDirectory, hdp, Bool.false_eq_true, if_neg, not_false_iff,
      hget, h]
    simp [etagOf_ne_nil obj]
  · simp only [serveObjectOrDirectory, hdp, Bool.false_eq_true, if_neg, not_false_iff,
      hget, h]
  · simp only [serveObjectOrDirectory, hdp, Bool.false_eq_true, if_neg, not_false_iff,
      hget, h]
    rw [if_neg (fun hc => hne hc.2)]

def c1obj : StoredObject :=
  { key := str "latest.json", content := str "mm", httpEtag := some (str "tag-1"),
    uploaded := str "2025-01-01T00:00:00.000Z", contentJson := some (JVal.jobj []) }

def c1req : Request :=
  { path := str "/latest.json", method := str "GET", ifNoneMatch := some (str "tag-1"),
    accept := none, cfRay := none, cfConnectingIP := none, parsedJson := none }

/-- Witness for C1: a matching `If-None-Match` on a stored manifest. -/
theorem conditionalGet_304_shares_headers_witness :
    endsW (str "/latest.json") (str "/") = false
    ∧ Bucket.get [c1obj] (str "latest.json") = some c1obj
    ∧ serveObjectOrDirectory [c1obj] (str "latest.json") (str "/latest.json") c1req
        = { status := 304, headers := hitHeaders (str "latest.json") c1obj, body := none } :=
  ⟨by decide, rfl,
    ((conditionalGet_304_shares_headers [c1obj] (str "latest.json") (str "/latest.json")
      c1req c1obj (by decide) rfl).1 rfl).1⟩

/-- C1 counterexample: the claim asserts the 304 carries no `Content-Type`
and no `Content-Length` header; on this concrete matching conditional
request the 304 response carries both. -/
theorem conditionalGet_counterexample :
    (serveObjectOrDirectory [c1obj] (str "latest.json") (str "/latest.json") c1req).status
        = 304
    ∧ getHeader (serveObjectOrDirectory [c1obj] (str "latest.json") (str "/latest.json")
        c1req).headers (str "Content-Type") = some (str "application/json; charset=utf-8")
    ∧ getHeader (serveObjectOrDirectory [c1obj] (str "latest.json") (str "/latest.json")
        c1req).headers (str "Content-Length") = some (str "2") := by decide

/-- The `error` field of a JSON response body, when present. -/
def errMsgOf (r : HttpResponse) : Option Str :=
  match r.body with
  | some (BodyVal.json v) =>
    match jGet v "error" with
    | some (JVal.jstr s) => some s
    | _ => none
  | _ => none

/-- C2 (amended): a body that parses as JSON but misses any of the three
required fields (or carries it empty) receives a 400 with the
`Invalid request body. Required: version, platform, yams_version` error; a
body that fails to parse lands in the catch branch and receives a 400 with
the distinct error `Invalid JSON body`; a body with all three fields
non-empty receives a 200 `{success: true}`. -/
theorem install_validation :
    (handlePluginApiInstall none
        = jsonResponse (JVal.jobj [("error", JVal.jstr (str "Invalid JSON body"))]) 400 300
      ∧ (handlePluginApiInstall none).status = 400)
    ∧ (∀ body : InstallFields,
        (jsOr body.version [] = [] ∨ jsOr body.platform [] = []
            ∨ jsOr body.yams_version [] = []) →
        handlePluginApiInstall (some body)
          = jsonResponse (JVal.jobj [("error", JVal.jstr
              (str "Invalid request body. Required: version, platform, yams_version"))])
              400 300)
    ∧ (∀ body : InstallFields,
        jsOr body.version [] ≠ [] → jsOr body.platform [] ≠ [] →
        jsOr body.yams_version [] ≠ [] →
        handlePluginApiInstall (some body)
          = jsonResponse (JVal.jobj [("success", JVal.jbool true)]) 200 0
        ∧ (handlePluginApiInstall (some body)).status = 200) := by
  refine ⟨⟨rfl, rfl⟩, fun body h => ?_, fun body h1 h2 h3 => ?_⟩
  · simp only [handlePluginApiInstall, if_pos h]
  · have hcond : ¬(jsOr body.version [] = [] ∨ jsOr body.platform [] = []
        ∨ jsOr body.yams_version [] = []) := by
      intro hc
      rcases hc with hc | hc | hc
      · exact h1 hc
      · exact h2 hc
      · exact h3 hc
    constructor
    · simp only [handlePluginApiInstall, if_neg hcond]
    · simp only [handlePluginApiInstall, if_neg hcond]
      rfl

/-- Witness for C2: a complete body succeeds, an incomplete one is
rejected with the `Required` message. -/
theorem install_validation_witness :
    (jsOr (some (str "0.1.0")) [] ≠ [] ∧ jsOr (some (str "linux-x64")) [] ≠ []
        ∧ jsOr (some (str "1.0.0")) [] ≠ [])
    ∧ handlePluginApiInstall
        (some { version := some (str "0.1.0"), platform := some (str "linux-x64"),
                yams_version := some (str "1.0.0") })
        = jsonResponse (JVal.jobj [("success", JVal.jbool true)]) 200 0
    ∧ handlePluginApiInstall
        (some { version := none, platform := some (str "linux-x64"),
                yams_version := some (str "1.0.0") })
        = jsonResponse (JVal.jobj [("error", JVal.jstr
            (str "Invalid request body. Required: version, platform, yams_version"))])
            400 300 :=
  ⟨⟨by decide, by decide, by decide⟩,
    (install_validation.2.2
      { version := some (str "0.1.0"), platform := some (str "linux-x64"),
        yams_version := some (str "1.0.0") }
      (by decide) (by decide) (by decide)).1,
    install_validation.2.1
      { version := none, platform := some (str "linux-x64"),
        yams_version := some (str "1.0.0") }
      (Or.inl (by decide))⟩

/-- C2 counterexample: on a body that fails JSON parsing, the error
message is `Invalid JSON body`, not the `Required` message the claim
asserts for that case. -/
theorem install_counterexample :
    errMsgOf (handlePluginApiInstall none) = some (str "Invalid JSON body")
    ∧ str "Invalid JSON body"
        ≠ str "Invalid request body. Required: version, platform, yams_version" := by
  decide

/-- C3: on a rate-limited path with a configured limiter, a denial
short-circuits the whole request with the fixed 429 response
(`Retry-After: 60`, structured JSON body); a limiter fault is swallowed
and the request proceeds exactly as if no limiter were configured
(fail-open); with no limiter configured the gate never consults a limiter
and routing proceeds; and on a path outside the rate-limited set the
limiter is never consulted regardless of configuration. -/
theorem rateLimit_gate_behavior (env : Env) (req : Request) :
    (env.rateLimiter = some LimiterOutcome.deny → shouldRateLimit req.path = true →
        workerFetch env req = rateLimitExceeded
        ∧ rateLimitExceeded.status = 429
        ∧ getHeader rateLimitExceeded.headers (str "Retry-After") = some (str "60")
        ∧ rateLimitExceeded.body = some (BodyVal.json (JVal.jobj
            [ ("error", JVal.jstr (str "Rate limit exceeded")),
              ("message", JVal.jstr (str "Too many requests. Please try again later.")),
              ("retry_after", JVal.jnum 60) ])))
    ∧ (env.rateLimiter = some LimiterOutcome.fault →
        workerFetch env req = workerFetch { env with rateLimiter := none } req)
    ∧ (env.rateLimiter = none →
        (rateLimitGate req.path env.rateLimiter).consulted = false
        ∧ workerFetch env req = route env req)
    ∧ (shouldRateLimit req.path = false →
        (rateLimitGate req.path env.rateLimiter).consulted = false
        ∧ workerFetch env req = route env req) := by
  refine ⟨fun hl hp => ⟨?_, rfl, rfl, rfl⟩, fun hl => ?_, fun hl => ⟨?_, ?_⟩,
    fun hp => ⟨?_, ?_⟩⟩
  · simp [workerFetch, rateLimitGate, hl, hp]
  · by_cases hp : shouldRateLimit req.path = true
    · simp only [workerFetch, rateLimitGate, hl, hp, if_pos]
      rfl
    · simp only [workerFetch, rateLimitGate, hl, if_neg hp]
      rfl
  · simp [rateLimitGate, hl]
  · simp [workerFetch, rateLimitGate, hl]
  · cases hl : env.rateLimiter with
    | none => simp [rateLimitGate, hl]
    | some outcome => simp [rateLimitGate, hl, hp]
  · cases hl : env.rateLimiter with
    | none => simp [workerFetch, rateLimitGate, hl]
    | some outcome => simp [workerFetch, rateLimitGate, hl, hp]

def c3envDeny : Env :=
  { bucket := [], rateLimiter := some LimiterOutcome.deny, aptPfx := str "aptrepo",
    yumPfx := str "yumrepo", latestManifest := str "latest.json" }

def c3req : Request :=
  { path := str "/aptrepo/pool/main/y/yams/yams_1.0_amd64.deb", method := str "GET",
    ifNoneMatch := none, accept := none, cfRay := none, cfConnectingIP := none,
    parsedJson := none }

def c3reqExempt : Request :=
  { path := str "/gpg.key", method := str "GET", ifNoneMatch := none, accept := none,
    cfRay := none, cfConnectingIP := none, parsedJson := none }

/-- Witness for C3: a `.deb` download under a denying limiter is 429; the
exempt `/gpg.key` path never consults the limiter. -/
theorem rateLimit_gate_behavior_witness :
    shouldRateLimit (str "/aptrepo/pool/main/y/yams/yams_1.0_amd64.deb") = true
    ∧ workerFetch c3envDeny c3req = rateLimitExceeded
    ∧ shouldRateLimit (str "/gpg.key") = false
    ∧ (rateLimitGate (str "/gpg.key") c3envDeny.rateLimiter).consulted = false :=
  ⟨by decide, ((rateLimit_gate_behavior c3envDeny c3req).1 rfl (by decide)).1, by decide,
    ((rateLimit_gate_behavior c3envDeny c3reqExempt).2.2.2 (by decide)).1⟩

/-- A response carries the full fixed security header set. -/
def hasSecurityHeaders (r : HttpResponse) : Prop :=
  ∀ p ∈ SECURITY_HEADERS, getHeader r.headers p.1 = some p.2

/-- On the hit path the response headers are always `hitHeaders`,
whichever conditional branch is taken. -/
theorem serve_hit_headers (b : Bucket) (key dp : Str) (req : Request) (obj : StoredObject)
    (hdp : endsW dp (str "/") = false) (hget : Bucket.get b key = some obj) :
    (serveObjectOrDirectory b key dp req).headers = hitHeaders key obj := by
  rcases hin : req.ifNoneMatch with _ | t
  · simp [serveObjectOrDirectory, hdp, hget, hin]
  · simp only [serveObjectOrDirectory, hdp, Bool.false_eq_true, if_neg, not_false_iff,
      hget, hin]
    by_cases hc : t ≠ [] ∧ t = etagOf obj
    · rw [if_pos hc]
    · rw [if_neg hc]

/-- C4 (amended): the responses built through `addSecurityHeaders` — every
plugin-API JSON response, every object-hit 200/304 response, and every
successful directory listing — carry all five security headers; but the
301 directory redirect and the root service-descriptor response are
constructed with bare header literals and carry none of them, contrary to
the claim. -/
theorem securityHeaders_coverage :
    (∀ (v : JVal) (s c : Nat), hasSecurityHeaders (jsonResponse v s c))
    ∧ (∀ (b : Bucket) (key dp : Str) (req : Request) (obj : StoredObject),
        endsW dp (str "/") = false → Bucket.get b key = some obj →
        hasSecurityHeaders (serveObjectOrDirectory b key dp req))
    ∧ (∀ (b : Bucket) (pfx dp : Str) (aj : Bool),
        ¬((listDelim b (normalizePath pfx) 1000).objects.length = 0
            ∧ (listDelim b (normalizePath pfx) 1000).delimitedPrefixes.length = 0) →
        hasSecurityHeaders (listDirectory b pfx dp aj))
    ∧ (∀ (b : Bucket) (key dp : Str) (req : Request),
        endsW dp (str "/") = false → Bucket.get b key = none →
        ((listDelim b (if endsW key (str "/") then key else key ++ str "/") 1).objects.length
              > 0
          ∨ (listDelim b (if endsW key (str "/") then key else key ++ str "/")
              1).delimitedPrefixes.length > 0) →
        (serveObjectOrDirectory b key dp req).status = 301
        ∧ getHeader (serveObjectOrDirectory b key dp req).headers
            (str "X-Content-Type-Options") = none)
    ∧ (∀ (env : Env) (req : Request), req.path = str "/" →
        (workerFetch env req).status = 200
        ∧ getHeader (workerFetch env req).headers (str "X-Content-Type-Options") = none) := by
  refine ⟨fun v s c => ?_, fun b key dp req obj hdp hget => ?_, fun b pfx dp aj h => ?_,
    fun b key dp req hdp hget hp => ?_, fun env req h => ?_⟩
  · intro p hp
    simp only [SECURITY_HEADERS, List.mem_cons, List.not_mem_nil, or_false] at hp
    rcases hp with rfl | rfl | rfl | rfl | rfl <;> rfl
  · intro p hp
    rw [serve_hit_headers b key dp req obj hdp hget]
    simp only [SECURITY_HEADERS, List.mem_cons, List.not_mem_nil, or_false] at hp
    rcases hp with rfl | rfl | rfl | rfl | rfl <;> rfl
  · intro p hp
    dsimp only [listDirectory]
    rw [if_neg h]
    simp only [SECURITY_HEADERS, List.mem_cons, List.not_mem_nil, or_false] at hp
    cases aj <;> (rcases hp with rfl | rfl | rfl | rfl | rfl <;> rfl)
  · constructor
    · simp only [serveObjectOrDirectory, hdp, Bool.false_eq_true, if_neg, not_false_iff,
        hget]
      rw [if_pos hp]
    · simp only [serveObjectOrDirectory, hdp, Bool.false_eq_true, if_neg, not_false_iff,
        hget]
      rw [if_pos hp]
      rfl
  · have hs : shouldRateLimit (str "/") = false := by decide
    cases hl : env.rateLimiter with
    | none =>
      constructor <;> simp [workerFetch, rateLimitGate, route, hl, h, hs] <;> rfl
    | some outcome =>
      constructor <;> simp [workerFetch, rateLimitGate, route, hl, h, hs] <;> rfl

def c4obj : StoredObject :=
  { key := str "aptrepo/dists/stable/Release", content := str "data",
    httpEtag := some (str "e4"), uploaded := str "2025-01-01T00:00:00.000Z",
    contentJson := none }

def c4req : Request :=
  { path := str "/aptrepo/dists", method := str "GET", ifNoneMatch := none,
    accept := none, cfRay := none, cfConnectingIP := none, parsedJson := none }

def c4env : Env :=
  { bucket := [c4obj], rateLimiter := none, aptPfx := str "aptrepo",
    yumPfx := str "yumrepo", latestManifest := str "latest.json" }

def c4reqRoot : Request :=
  { path := str "/", method := str "GET", ifNoneMatch := none, accept := none,
    cfRay := none, cfConnectingIP := none, parsedJson := none }

/-- Witness for C4 (amended): a plugin-API JSON response and an object-hit
response carry the security headers. -/
theorem securityHeaders_coverage_witness :
    hasSecurityHeaders (jsonResponse (JVal.jobj [("success", JVal.jbool true)]) 200 0)
    ∧ hasSecurityHeaders (serveObjectOrDirectory [c4obj] (str "aptrepo/dists/stable/Release")
        (str "/aptrepo/dists/stable/Release") c4req) :=
  ⟨securityHeaders_coverage.1 (JVal.jobj [("success", JVal.jbool true)]) 200 0,
    securityHeaders_coverage.2.1 [c4obj] (str "aptrepo/dists/stable/Release")
      (str "/aptrepo/dists/stable/Release") c4req c4obj (by decide) rfl⟩

/-- C4 counterexample: the claim asserts the 301 directory redirect and
the root service-descriptor carry the security headers; this concrete 301
and the root response carry none (shown on `X-Content-Type-Options`). -/
theorem securityHeaders_counterexample :
    (serveObjectOrDirectory [c4obj] (str "aptrepo/dists") (str "/aptrepo/dists") c4req).status
        = 301
    ∧ getHeader (serveObjectOrDirectory [c4obj] (str "aptrepo/dists") (str "/aptrepo/dists")
        c4req).headers (str "X-Content-Type-Options") = none
    ∧ (workerFetch c4env c4reqRoot).status = 200
    ∧ getHeader (workerFetch c4env c4reqRoot).headers (str "X-Content-Type-Options")
        = none := by
  decide

/-- C5: on a miss for a non-directory path, a non-empty delimiter probe
yields a 301 whose `Location` is the display path with exactly one
trailing slash appended (it ends in `/` but not in `//`); an empty probe
yields the 404 `object not found` JSON body, echoing the request's
`CF-Ray` tracing header as `cfRay` exactly when present. -/
theorem miss_redirect_or_404 (b : Bucket) (key dp : Str) (req : Request)
    (hdp : endsW dp (str "/") = false) (hget : Bucket.get b key = none) :
    (((listDelim b (if endsW key (str "/") then key else key ++ str "/") 1).objects.length > 0
        ∨ (listDelim b (if endsW key (str "/") then key else key ++ str "/")
            1).delimitedPrefixes.length > 0) →
      serveObjectOrDirectory b key dp req
        = { status := 301, headers := [(str "Location", dp ++ str "/")], body := none }
      ∧ endsW (dp ++ str "/") (str "/") = true
      ∧ endsW (dp ++ str "/") (str "//") = false)
    ∧ (¬((listDelim b (if endsW key (str "/") then key else key ++ str "/")
            1).objects.length > 0
        ∨ (listDelim b (if endsW key (str "/") then key else key ++ str "/")
            1).delimitedPrefixes.length > 0) →
      (serveObjectOrDirectory b key dp req).status = 404
      ∧ (req.cfRay = none →
          (serveObjectOrDirectory b key dp req).body
            = some (BodyVal.json (JVal.jobj [("error", JVal.jstr (str "object not found"))])))
      ∧ (∀ i, req.cfRay = some i →
          (serveObjectOrDirectory b key dp req).body
            = some (BodyVal.json (JVal.jobj
                [("error", JVal.jstr (str "object not found")), ("cfRay", JVal.jstr i)])))) := by
  constructor
  · intro hp
    refine ⟨?_, ?_, ?_⟩
    · simp only [serveObjectOrDirectory, hdp, Bool.false_eq_true, if_neg, not_false_iff,
        hget]
      rw [if_pos hp]
    · have h1 : str "/" = ['/'] := rfl
      rw [h1]
      exact endsW_append_single dp '/'
    · rw [endsW_double_slash, hdp]
  · intro hp
    refine ⟨?_, fun hc => ?_, fun i hc => ?_⟩
    · simp only [serveObjectOrDirectory, hdp, Bool.false_eq_true, if_neg, not_false_iff,
        hget]
      rw [if_neg hp]
      rfl
    · simp only [serveObjectOrDirectory, hdp, Bool.false_eq_true, if_neg, not_false_iff,
        hget]
      rw [if_neg hp]
      simp [notFound, hc]
    · simp only [serveObjectOrDirectory, hdp, Bool.false_eq_true, if_neg, not_false_iff,
        hget]
      rw [if_neg hp]
      simp [notFound, hc]

def c5obj : StoredObject :=
  { key := str "yumrepo/repodata/repomd.xml", content := str "xml",
    httpEtag := some (str "e5"), uploaded := str "2025-01-01T00:00:00.000Z",
    contentJson := none }

def c5req : Request :=
  { path := str "/yumrepo/repodata", method := str "GET", ifNoneMatch := none,
    accept := none, cfRay := some (str "ray-77"), cfConnectingIP := none,
    parsedJson := none }

/-- Witness for C5: a directory accessed without its trailing slash is
redirected with exactly one slash appended; a fully absent key is a 404
echoing the tracing header. -/
theorem miss_redirect_or_404_witness :
    (serveObjectOrDirectory [c5obj] (str "yumrepo/repodata") (str "/yumrepo/repodata") c5req
        = { status := 301, headers := [(str "Location", str "/yumrepo/repodata/")],
            body := none }
      ∧ endsW (str "/yumrepo/repodata" ++ str "/") (str "/") = true
      ∧ endsW (str "/yumrepo/repodata" ++ str "/") (str "//") = false)
    ∧ ((serveObjectOrDirectory [c5obj] (str "yumrepo/nope") (str "/yumrepo/nope")
          c5req).status = 404
      ∧ (serveObjectOrDirectory [c5obj] (str "yumrepo/nope") (str "/yumrepo/nope")
          c5req).body
            = some (BodyVal.json (JVal.jobj
                [("error", JVal.jstr (str "object not found")),
                 ("cfRay", JVal.jstr (str "ray-77"))]))) :=
  ⟨by
    have h := (miss_redirect_or_404 [c5obj] (str "yumrepo/repodata")
      (str "/yumrepo/repodata") c5req (by decide) rfl).1 (by decide)
    exact ⟨h.1, h.2.1, h.2.2⟩,
   by
    have h := (miss_redirect_or_404 [c5obj] (str "yumrepo/nope") (str "/yumrepo/nope")
      c5req (by decide) rfl).2 (by decide)
    exact ⟨h.1, h.2.2 (str "ray-77") rfl⟩⟩

/-- Every delimited sub-prefix of a listing ends, past the prefix, in the
delimiter. -/
theorem listDelim_dir_names (b : Bucket) (pfx : Str) (limit : Nat) :
    ∀ p ∈ (listDelim b pfx limit).delimitedPrefixes,
      endsW (p.drop pfx.length) (str "/") = true := by
  intro p hp
  rw [listDelim_eq] at hp
  have hmem : p ∈ (collect pfx (b.filter (fun o => pfx.isPrefixOf o.key)) ([], [])).1 :=
    (List.perm_insertionSort _ _).mem_iff.mp hp
  exact collect_dirShape pfx _ ([], []) (by simp) p hmem

/-- Every listed object key is, past the prefix, non-empty and
delimiter-free. -/
theorem listDelim_file_names (b : Bucket) (pfx : Str) (limit : Nat) :
    ∀ o ∈ (listDelim b pfx limit).objects,
      idxOfChar (o.key.drop pfx.length) '/' = none
      ∧ (o.key.drop pfx.length).length > 0 := by
  intro o ho
  rw [listDelim_eq] at ho
  have hmem : o ∈ (collect pfx (b.filter (fun o => pfx.isPrefixOf o.key)) ([], [])).2 :=
    List.take_subset _ _ ho
  exact collect_fileShape pfx _ ([], []) (by simp) o hmem

/-- A delimiter-free string does not end with the delimiter. -/
theorem not_endsW_slash_of_no_slash {f : Str} (h : idxOfChar f '/' = none) :
    endsW f (str "/") = false := by
  cases he : endsW f (str "/") with
  | false => rfl
  | true =>
    have h1 : str "/" = ['/'] := rfl
    rw [h1] at he
    exact absurd (endsW_single_mem he) (idxOfChar_none h)

/-- C6: a non-empty listing in JSON mode answers 200 with body
`{path, files}` where the name array is the sorted directory names (each
retaining its trailing slash) followed by the sorted file names (none with
a trailing slash); both groups are sorted lexicographically and are
permutations of the respective listing components. -/
theorem listing_json_order (b : Bucket) (pfx dp : Str)
    (h : ¬((listDelim b (normalizePath pfx) 1000).objects.length = 0
        ∧ (listDelim b (normalizePath pfx) 1000).delimitedPrefixes.length = 0)) :
    ∃ ds fs : List Str,
      listDirectory b pfx dp true
        = { status := 200
            headers := setHeader (addSecurityHeaders []) (str "Content-Type")
              (str "application/json; charset=utf-8")
            body := some (BodyVal.json (JVal.jobj
              [ ("path", JVal.jstr dp),
                ("files", JVal.jarr ((ds ++ fs).map JVal.jstr)) ])) }
      ∧ ds.Perm ((listDelim b (normalizePath pfx) 1000).delimitedPrefixes.map
          (fun p => p.drop (normalizePath pfx).length))
      ∧ fs.Perm ((listDelim b (normalizePath pfx) 1000).objects.map
          (fun o => o.key.drop (normalizePath pfx).length))
      ∧ List.Sorted (· ≤ ·) ds ∧ List.Sorted (· ≤ ·) fs
      ∧ (∀ d ∈ ds, endsW d (str "/") = true)
      ∧ (∀ f ∈ fs, endsW f (str "/") = false) := by
  set npfx := normalizePath pfx with hnpfx
  set L := listDelim b npfx 1000 with hL
  set dirs := L.delimitedPrefixes.map (fun p =>
    ({ name := p.drop npfx.length, size := 0, modified := [], isDir := true } : DirEntry))
    with hdirs
  set files := L.objects.map (fun o =>
    ({ name := o.key.drop npfx.length, size := o.size, modified := o.uploaded,
       isDir := false } : DirEntry)) with hfiles
  refine ⟨(List.insertionSort entryLe dirs).map (fun e => e.name),
    (List.insertionSort entryLe files).map (fun e => e.name), ?_, ?_, ?_, ?_, ?_, ?_, ?_⟩
  · dsimp only [listDirectory]
    rw [if_neg h]
    have hnames : (allEntriesOf npfx L).map (fun e => JVal.jstr e.name)
        = ((List.insertionSort entryLe dirs).map (fun e => e.name)
            ++ (List.insertionSort entryLe files).map (fun e => e.name)).map JVal.jstr := by
      simp only [allEntriesOf, ← hdirs, ← hfiles, List.map_append, List.map_map]
      rfl
    dsimp only [allEntriesOf] at hnames ⊢
    rw [← hdirs, ← hfiles] at hnames ⊢
    rw [hnames]
    simp only [eq_self_iff_true, if_true]
  · have hperm := (List.perm_insertionSort entryLe dirs).map (fun e : DirEntry => e.name)
    refine hperm.trans ?_
    rw [hdirs, List.map_map]
    exact List.Perm.refl _
  · have hperm := (List.perm_insertionSort entryLe files).map (fun e : DirEntry => e.name)
    refine hperm.trans ?_
    rw [hfiles, List.map_map]
    exact List.Perm.refl _
  · exact List.Pairwise.map _ (fun a b hab => hab) (List.sorted_insertionSort entryLe dirs)
  · exact List.Pairwise.map _ (fun a b hab => hab) (List.sorted_insertionSort entryLe files)
  · intro d hd
    rcases List.mem_map.mp hd with ⟨e, he, rfl⟩
    have he2 : e ∈ dirs := (List.perm_insertionSort entryLe dirs).mem_iff.mp he
    rcases List.mem_map.mp he2 with ⟨p, hp, rfl⟩
    exact listDelim_dir_names b npfx 1000 p hp
  · intro f hf
    rcases List.mem_map.mp hf with ⟨e, he, rfl⟩
    have he2 : e ∈ files := (List.perm_insertionSort entryLe files).mem_iff.mp he
    rcases List.mem_map.mp he2 with ⟨o, ho, rfl⟩
    exact not_endsW_slash_of_no_slash (listDelim_file_names b npfx 1000 o ho).1

def c6bucket : Bucket :=
  [ { key := str "aptrepo/zz.txt", content := str "z", httpEtag := some (str "ez"),
      uploaded := str "2025-01-01T00:00:00.000Z", contentJson := none },
    { key := str "aptrepo/pool/x.deb", content := str "x", httpEtag := some (str "ex"),
      uploaded := str "2025-01-01T00:00:00.000Z", contentJson := none },
    { key := str "aptrepo/aa.txt", content := str "a", httpEtag := some (str "ea"),
      uploaded := str "2025-01-01T00:00:00.000Z", contentJson := none },
    { key := str "aptrepo/dists/stable/Release", content := str "r",
      httpEtag := some (str "er"), uploaded := str "2025-01-01T00:00:00.000Z",
      contentJson := none } ]

/-- Witness for C6 on a bucket with two sub-directories and two files. -/
theorem listing_json_order_witness :
    ¬((listDelim c6bucket (normalizePath (str "aptrepo/")) 1000).objects.length = 0
        ∧ (listDelim c6bucket (normalizePath (str "aptrepo/"))
            1000).delimitedPrefixes.length = 0)
    ∧ ∃ ds fs : List Str,
      listDirectory c6bucket (str "aptrepo/") (str "/aptrepo/") true
        = { status := 200
            headers := setHeader (addSecurityHeaders []) (str "Content-Type")
              (str "application/json; charset=utf-8")
            body := some (BodyVal.json (JVal.jobj
              [ ("path", JVal.jstr (str "/aptrepo/")),
                ("files", JVal.jarr ((ds ++ fs).map JVal.jstr)) ])) }
      ∧ ds.Perm ((listDelim c6bucket (normalizePath (str "aptrepo/"))
          1000).delimitedPrefixes.map
            (fun p => p.drop (normalizePath (str "aptrepo/")).length))
      ∧ fs.Perm ((listDelim c6bucket (normalizePath (str "aptrepo/")) 1000).objects.map
          (fun o => o.key.drop (normalizePath (str "aptrepo/")).length))
      ∧ List.Sorted (· ≤ ·) ds ∧ List.Sorted (· ≤ ·) fs
      ∧ (∀ d ∈ ds, endsW d (str "/") = true)
      ∧ (∀ f ∈ fs, endsW f (str "/") = false) :=
  ⟨by decide,
    listing_json_order c6bucket (str "aptrepo/") (str "/aptrepo/") (by decide)⟩

/-- The per-character entity map induced by the five sequential
replacements of `escapeHtml`: each of `&`, `<`, `>`, `"`, `'` becomes its
HTML entity, every other character is untouched. -/
def escMap (c : Char) : Str :=
  if c = '&' then str "&amp;"
  else if c = '<' then str "&lt;"
  else if c = '>' then str "&gt;"
  else if c = dquote then str "&quot;"
  else if c = apos then str "&#039;"
  else [c]

/-- `escapeHtml` distributes over concatenation. -/
theorem escapeHtml_append (x y : Str) :
    escapeHtml (x ++ y) = escapeHtml x ++ escapeHtml y := by
  simp [escapeHtml, replaceAllChar, List.flatMap_append]

/-- `escapeHtml` on a single character is the entity map: the entity texts
introduced by each replacement stage contain none of the characters
targeted by the later stages. -/
theorem escapeHtml_single (a : Char) : escapeHtml [a] = escMap a := by
  by_cases h1 : a = '&'
  · subst h1; decide
  · by_cases h2 : a = '<'
    · subst h2; decide
    · by_cases h3 : a = '>'
      · subst h3; decide
      · by_cases h4 : a = dquote
        · subst h4; decide
        · by_cases h5 : a = apos
          · subst h5; decide
          · simp [escapeHtml, replaceAllChar, escMap, h1, h2, h3, h4, h5]

/-- The five sequential global replacements equal one pass of the
per-character entity map. -/
theorem escapeHtml_flatMap (s : Str) : escapeHtml s = s.flatMap escMap := by
  induction s with
  | nil => rfl
  | cons a t ih =>
    have : (a :: t) = [a] ++ t := rfl
    rw [this, escapeHtml_append, escapeHtml_single, List.flatMap_append, ih]
    simp

/-- Substring occurrence as a boolean scan: the pattern occurs at some
suffix position. -/
def containsSub (pat : Str) : Str → Bool
  | [] => pat.isPrefixOf []
  | c :: rest => pat.isPrefixOf (c :: rest) || containsSub pat rest

/-- The scan decides the infix relation. -/
theorem containsSub_iff (pat : Str) : ∀ s : Str, containsSub pat s = true ↔ pat <:+: s := by
  intro s
  induction s with
  | nil =>
    simp [containsSub, List.infix_nil]
  | cons c rest ih =>
    simp only [containsSub, Bool.or_eq_true, List.infix_cons_iff, ih,
      List.isPrefixOf_iff_prefix]

/-- The raw HTML text of a response, when it carries one. -/
def htmlBodyOf (r : HttpResponse) : Str :=
  match r.body with
  | some (BodyVal.raw s) => s
  | _ => []

def c7obj : StoredObject :=
  { key := str "plugins/<script>alert(1)</script>.deb", content := str "evil",
    httpEtag := some (str "e7"), uploaded := str "2025-01-01T00:00:00.000Z",
    contentJson := none }

set_option maxRecDepth 100000 in
/-- C7 (amended): `escapeHtml` replaces each of the five characters
`& < > \x22 \x27` by its entity and leaves every other character alone
(one pass of `escMap`), and entry names and the heading display path are
rendered through it; in the HTML listing of a bucket holding an object key
containing `<script>alert(1)</script>`, that substring never appears
unescaped and the escaped `&lt;script&gt;` appears instead.  (The
cumulative breadcrumb hrefs, however, embed the display path unescaped —
see the counterexample.) -/
theorem html_escaping :
    (∀ s : Str, escapeHtml s = s.flatMap escMap)
    ∧ escMap '&' = str "&amp;" ∧ escMap '<' = str "&lt;" ∧ escMap '>' = str "&gt;"
    ∧ escMap dquote = str "&quot;" ∧ escMap apos = str "&#039;"
    ∧ (listDirectory [c7obj] (str "plugins/") (str "/plugins/") false).status = 200
    ∧ ¬((str "<script>alert(1)</script>")
        <:+: htmlBodyOf (listDirectory [c7obj] (str "plugins/") (str "/plugins/") false))
    ∧ ((str "&lt;script&gt;")
        <:+: htmlBodyOf (listDirectory [c7obj] (str "plugins/") (str "/plugins/") false)) := by
  have hF : containsSub (str "<script>alert(1)</script>")
      (htmlBodyOf (listDirectory [c7obj] (str "plugins/") (str "/plugins/") false))
      = false := by rfl
  have hT : containsSub (str "&lt;script&gt;")
      (htmlBodyOf (listDirectory [c7obj] (str "plugins/") (str "/plugins/") false))
      = true := by rfl
  refine ⟨escapeHtml_flatMap, by decide, by decide, by decide, by decide, by decide,
    by decide, fun hc => ?_, (containsSub_iff _ _).mp hT⟩
  rw [(containsSub_iff _ _).mpr hc] at hF
  exact Bool.noConfusion hF

def c7xobj : StoredObject :=
  { key := str "a" ++ [apos] ++ str "b/f.txt", content := str "f",
    httpEtag := some (str "e7x"), uploaded := str "2025-01-01T00:00:00.000Z",
    contentJson := none }

set_option maxRecDepth 100000 in
/-- C7 counterexample: the claim asserts every dynamic text fragment,
including the display path, is HTML-escaped with `'` replaced by
`&#039;`; listing a directory whose display path contains an apostrophe
produces HTML in which the raw path (apostrophe unescaped) appears — it is
embedded verbatim in the cumulative breadcrumb href. -/
theorem html_escaping_counterexample :
    (listDirectory [c7xobj] (str "a" ++ [apos] ++ str "b/")
        (str "/a" ++ [apos] ++ str "b/") false).status = 200
    ∧ ((str "/a" ++ [apos] ++ str "b/")
        <:+: htmlBodyOf (listDirectory [c7xobj] (str "a" ++ [apos] ++ str "b/")
          (str "/a" ++ [apos] ++ str "b/") false))
    ∧ ([apos]
        <:+: htmlBodyOf (listDirectory [c7xobj] (str "a" ++ [apos] ++ str "b/")
          (str "/a" ++ [apos] ++ str "b/") false)) := by
  have hT1 : containsSub (str "/a" ++ [apos] ++ str "b/")
      (htmlBodyOf (listDirectory [c7xobj] (str "a" ++ [apos] ++ str "b/")
        (str "/a" ++ [apos] ++ str "b/") false)) = true := by rfl
  have hT2 : containsSub [apos]
      (htmlBodyOf (listDirectory [c7xobj] (str "a" ++ [apos] ++ str "b/")
        (str "/a" ++ [apos] ++ str "b/") false)) = true := by rfl
  exact ⟨by decide, (containsSub_iff _ _).mp hT1, (containsSub_iff _ _).mp hT2⟩

def c9manifest1 : JVal :=
  JVal.jobj [("name", JVal.jstr (str "demo")), ("version", JVal.jstr (str "0.1.0"))]

def c9manifest2 : JVal :=
  JVal.jobj [("name", JVal.jstr (str "demo")), ("version", JVal.jstr (str "0.2.0"))]

def c9manifest3 : JVal :=
  JVal.jobj [("name", JVal.jstr (str "demo")), ("version", JVal.jstr (str "0.3.0"))]

def c9bucket : Bucket :=
  [ { key := str "plugins/demo/manifest.json", content := str "m",
      httpEtag := some (str "em"), uploaded := str "2025-01-01T00:00:00.000Z",
      contentJson := some c9manifest3 },
    { key := str "plugins/demo/0.1.0/manifest.json", content := str "m1",
      httpEtag := some (str "e1"), uploaded := str "2025-01-01T00:00:00.000Z",
      contentJson := some c9manifest1 },
    { key := str "plugins/demo/0.2.0/manifest.json", content := str "m2",
      httpEtag := some (str "e2"), uploaded := str "2025-01-01T00:00:00.000Z",
      contentJson := some c9manifest2 },
    { key := str "plugins/demo/0.3.0/manifest.json", content := str "m3",
      httpEtag := some (str "e3"), uploaded := str "2025-01-01T00:00:00.000Z",
      contentJson := some c9manifest3 } ]

/-- C9: whenever a plugin has versions, the versions endpoint answers with
exactly the collected version sub-prefixes sorted descending under the
numeric-aware comparison (`vdesc`), and the latest endpoint delegates to
the version-metadata handler for the head of that sort; in particular with
versions `0.1.0`, `0.2.0`, `0.3.0` present the versions endpoint returns
`["0.3.0", "0.2.0", "0.1.0"]` and the latest endpoint resolves to the
`0.3.0` manifest. -/
theorem version_sort_desc :
    (∀ (b : Bucket) (name : Str), versionsOf b name ≠ [] →
        handlePluginApiVersions b name
          = jsonResponse (JVal.jobj [("versions",
              JVal.jarr ((sortVersionsDesc (versionsOf b name)).map JVal.jstr))]) 200 300
        ∧ List.Sorted vdesc (sortVersionsDesc (versionsOf b name))
        ∧ (sortVersionsDesc (versionsOf b name)).Perm (versionsOf b name)
        ∧ (∀ (v : Str) (ws : List Str), sortVersionsDesc (versionsOf b name) = v :: ws →
            handlePluginApiLatest b name = handlePluginApiVersion b name v))
    ∧ versionsOf c9bucket (str "demo") = [str "0.1.0", str "0.2.0", str "0.3.0"]
    ∧ sortVersionsDesc (versionsOf c9bucket (str "demo"))
        = [str "0.3.0", str "0.2.0", str "0.1.0"]
    ∧ handlePluginApiVersions c9bucket (str "demo")
        = jsonResponse (JVal.jobj [("versions", JVal.jarr
            [JVal.jstr (str "0.3.0"), JVal.jstr (str "0.2.0"), JVal.jstr (str "0.1.0")])])
            200 300
    ∧ handlePluginApiLatest c9bucket (str "demo") = jsonResponse c9manifest3 200 86400 := by
  refine ⟨fun b name h => ?_, by decide, by decide, rfl, rfl⟩
  have hlen : ¬(versionsOf b name).length = 0 := by
    simpa [List.length_eq_zero] using h
  refine ⟨?_, ?_, ?_, fun v ws hs => ?_⟩
  · dsimp only [handlePluginApiVersions]
    rw [if_neg hlen]
  · exact List.sorted_insertionSort vdesc _
  · exact List.perm_insertionSort vdesc _
  · dsimp only [handlePluginApiLatest]
    rw [if_neg hlen]
    rw [show sortVersionsDesc (versionsOf b name) = v :: ws from hs]

/-- Witness for C9: the general clause applied to the concrete
three-version bucket. -/
theorem version_sort_desc_witness :
    versionsOf c9bucket (str "demo") ≠ []
    ∧ handlePluginApiVersions c9bucket (str "demo")
        = jsonResponse (JVal.jobj [("versions",
            JVal.jarr ((sortVersionsDesc (versionsOf c9bucket (str "demo"))).map
              JVal.jstr))]) 200 300
    ∧ handlePluginApiLatest c9bucket (str "demo")
        = handlePluginApiVersion c9bucket (str "demo") (str "0.3.0") :=
  ⟨by decide,
    ((version_sort_desc.1 c9bucket (str "demo") (by decide))).1,
    ((version_sort_desc.1 c9bucket (str "demo") (by decide))).2.2.2 (str "0.3.0")
      [str "0.2.0", str "0.1.0"] (by decide)⟩

/-- C10: the version array computed for the versions and latest endpoints
never contains the entry `manifest.json` — the collecting loop filters
that capture out — and neither does its descending sort. -/
theorem versions_never_manifest (b : Bucket) (name : Str) :
    str "manifest.json" ∉ versionsOf b name
    ∧ str "manifest.json" ∉ sortVersionsDesc (versionsOf b name) := by
  have hmain : str "manifest.json" ∉ versionsOf b name := by
    unfold versionsOf
    have hgen : ∀ (ps : List Str) (acc : List Str), str "manifest.json" ∉ acc →
        str "manifest.json" ∉ ps.foldl
          (fun acc p =>
            match versionMatch p with
            | some v => if v ≠ str "manifest.json" then acc ++ [v] else acc
            | none => acc) acc := by
      intro ps
      induction ps with
      | nil => intro acc hacc; exact hacc
      | cons p rest ih =>
        intro acc hacc
        rcases hm : versionMatch p with _ | v
        · simpa [List.foldl_cons, hm] using ih acc hacc
        · by_cases hv : v ≠ str "manifest.json"
          · simp only [List.foldl_cons, hm, if_pos hv]
            refine ih _ ?_
            intro hc
            rcases List.mem_append.mp hc with hc | hc
            · exact hacc hc
            · simp at hc
              exact hv hc.symm
          · have hveq : v = str "manifest.json" := not_not.mp hv
            simpa [List.foldl_cons, hm, hveq] using ih acc hacc
    exact hgen _ [] (by simp)
  refine ⟨hmain, fun hc => hmain ?_⟩
  exact (List.perm_insertionSort vdesc _).mem_iff.mp hc
